import Mathlib

/-
Verification of the life-wallpaper time-to-pixel rendering pipeline.

This file gives a shallow embedding, in Lean 4, of the pure computational
core of the repository:

* `computeGridLayout`  (src/unnamed/part_003, the grid layout engine),
* `getCellPosition`    (src/src/utils/life.position.ts),
* `getFullMonthsLived` and `getCurrentMonthProgress`
                       (src/src/utils/life.position.ts, temporal layer),
* `getCellState`       (src/unnamed/part_004, the cell classifier),
* `lerpColor` and `getCellColor` (src/unnamed/part_002, the draw engine).

JavaScript numbers are modelled in two ways, matching what each claim needs:

* For the layout engine, whose degenerate inputs flow through division by
  zero, values are modelled by `JSNum`: an exact rational together with the
  IEEE-754 special values Infinity, -Infinity and NaN, with the propagation
  rules JavaScript uses.  Finite double arithmetic is idealised as exact
  rational arithmetic (no rounding); the structural claims proved here do
  not depend on rounding.
* For the position mapper, classifier, temporal layer and color resolution,
  whose claims quantify over integer indices and ordinary finite values,
  integers are modelled by Lean integers and other numeric values by exact
  rationals.  Every division or remainder evaluated on these paths has a
  provably nonzero divisor except where a claim is being refuted, and the
  refuting statements are arranged so that they hold under both the
  rational convention (x / 0 = 0) and the JavaScript convention
  (x / 0 is NaN or infinite).

The host Date API (parsing, component extraction, setMonth arithmetic) is
not part of the repository; it is modelled abstractly: a parsed date is an
`Option SimpleDate` (`none` is an unparseable string), and the epoch
timestamps produced by setMonth arithmetic are supplied by an abstract
strictly monotone function in `TimeModel`.
-/

/-- A JavaScript number, idealised: a finite value is an exact rational;
the IEEE-754 special values Infinity, -Infinity and NaN are explicit
constructors.  Signed zero is identified with zero (no code path modelled
here distinguishes them). -/
inductive JSNum where
  | fin (q : ℚ)
  | inf
  | ninf
  | nan
deriving DecidableEq, Repr

namespace JSNum

/-- JavaScript addition on idealised doubles: NaN propagates, opposite
infinities give NaN, an infinity absorbs any finite value. -/
def add : JSNum → JSNum → JSNum
  | nan, _ => nan
  | _, nan => nan
  | fin a, fin b => fin (a + b)
  | inf, ninf => nan
  | ninf, inf => nan
  | inf, _ => inf
  | _, inf => inf
  | ninf, _ => ninf
  | _, ninf => ninf

/-- JavaScript unary negation. -/
def neg : JSNum → JSNum
  | nan => nan
  | inf => ninf
  | ninf => inf
  | fin a => fin (-a)

/-- JavaScript subtraction, which is addition of the negation. -/
def sub (a b : JSNum) : JSNum := a.add b.neg

/-- JavaScript multiplication: NaN propagates, zero times an infinity is
NaN, otherwise an infinity keeps the sign rules of the factors. -/
def mul : JSNum → JSNum → JSNum
  | nan, _ => nan
  | _, nan => nan
  | fin a, fin b => fin (a * b)
  | fin a, inf => if 0 < a then inf else if a < 0 then ninf else nan
  | inf, fin a => if 0 < a then inf else if a < 0 then ninf else nan
  | fin a, ninf => if 0 < a then ninf else if a < 0 then inf else nan
  | ninf, fin a => if 0 < a then ninf else if a < 0 then inf else nan
  | inf, inf => inf
  | inf, ninf => ninf
  | ninf, inf => ninf
  | ninf, ninf => inf

/-- JavaScript division: NaN propagates, a nonzero finite value divided by
zero gives a signed infinity, zero divided by zero gives NaN, a finite
value divided by an infinity gives zero, an infinity divided by a finite
value stays infinite, an infinity divided by an infinity gives NaN. -/
def div : JSNum → JSNum → JSNum
  | nan, _ => nan
  | _, nan => nan
  | fin a, fin b =>
      if b = 0 then (if 0 < a then inf else if a < 0 then ninf else nan)
      else fin (a / b)
  | fin _, inf => fin 0
  | fin _, ninf => fin 0
  | inf, fin b => if 0 ≤ b then inf else ninf
  | ninf, fin b => if 0 ≤ b then ninf else inf
  | inf, _ => nan
  | ninf, _ => nan

/-- JavaScript Math.min: NaN if either argument is NaN. -/
def minJ : JSNum → JSNum → JSNum
  | nan, _ => nan
  | _, nan => nan
  | fin a, fin b => fin (min a b)
  | ninf, _ => ninf
  | _, ninf => ninf
  | inf, b => b
  | a, inf => a

/-- JavaScript Math.max: NaN if either argument is NaN. -/
def maxJ : JSNum → JSNum → JSNum
  | nan, _ => nan
  | _, nan => nan
  | fin a, fin b => fin (max a b)
  | inf, _ => inf
  | _, inf => inf
  | ninf, b => b
  | a, ninf => a

/-- JavaScript Math.floor on an idealised double. -/
def floorJ : JSNum → JSNum
  | nan => nan
  | inf => inf
  | ninf => ninf
  | fin q => fin (⌊q⌋ : ℚ)

/-- JavaScript Math.ceil on an idealised double. -/
def ceilJ : JSNum → JSNum
  | nan => nan
  | inf => inf
  | ninf => ninf
  | fin q => fin (⌈q⌉ : ℚ)

/-- Models the composition Math.floor (Math.sqrt x) as it appears on line
144 of src/unnamed/part_003.  Math.sqrt of a negative value is NaN and
Math.floor of NaN is NaN; Math.sqrt Infinity is Infinity.  For a
nonnegative rational q the integer ⌊√q⌋ equals Nat.sqrt ⌊q⌋, because both
are characterised by n * n ≤ q < (n+1) * (n+1); the theorem
`floorSqrt_eq_floor_real_sqrt` below proves this characterisation against
the real square root. -/
def floorSqrt : JSNum → JSNum
  | nan => nan
  | inf => inf
  | ninf => nan
  | fin q => if 0 ≤ q then fin (Nat.sqrt ⌊q⌋.toNat : ℚ) else nan

instance : Add JSNum := ⟨JSNum.add⟩
instance : Neg JSNum := ⟨JSNum.neg⟩
instance : Sub JSNum := ⟨JSNum.sub⟩
instance : Mul JSNum := ⟨JSNum.mul⟩
instance : Div JSNum := ⟨JSNum.div⟩

/-- The rational value of a finite JavaScript number; 0 on the special
values (used only after finiteness has been established). -/
def toQ : JSNum → ℚ
  | fin q => q
  | _ => 0

/-- Whether a JavaScript number is finite (neither infinite nor NaN). -/
def finite : JSNum → Bool
  | fin _ => true
  | _ => false

end JSNum

/-- The layout record returned by computeGridLayout
(src/unnamed/part_003, lines 117 to 123: interface returnVal). -/
structure GridLayoutJS where
  rows : JSNum
  columns : JSNum
  cellSize : JSNum
  offsetX : JSNum
  offsetY : JSNum
deriving DecidableEq, Repr

/-- Embedding of computeGridLayout (src/unnamed/part_003, lines 132 to
165).  The padding, usable region, row and column solving, cell size and
centering offsets follow the source line by line; Math.floor (Math.sqrt _)
is modelled by `JSNum.floorSqrt`, Math.max by `JSNum.maxJ`, Math.ceil by
`JSNum.ceilJ` and Math.min by `JSNum.minJ`. -/
def computeGridLayout (totalMonths width height : JSNum) : GridLayoutJS :=
  let horizontalPadding := JSNum.fin (1/10) * width
  let verticalPadding := JSNum.fin (1/10) * height
  let usableWidth := width - JSNum.fin 2 * horizontalPadding
  let usableHeight := height - JSNum.fin 2 * verticalPadding
  let rows := JSNum.maxJ
    (JSNum.floorSqrt ((totalMonths * usableHeight) / usableWidth)) (JSNum.fin 1)
  let columns := JSNum.ceilJ (totalMonths / rows)
  let cellWidth := usableWidth / columns
  let cellHeight := usableHeight / rows
  let cellSize := JSNum.minJ cellWidth cellHeight
  let offsetX := (width - columns * cellSize) / JSNum.fin 2
  let offsetY := (height - rows * cellSize) / JSNum.fin 2
  { rows := rows, columns := columns, cellSize := cellSize,
    offsetX := offsetX, offsetY := offsetY }

/-- computeGridLayout applied to finite inputs (the only way the render
loop calls it). -/
def layoutAt (t w h : ℚ) : GridLayoutJS :=
  computeGridLayout (JSNum.fin t) (JSNum.fin w) (JSNum.fin h)

/-- The grid geometry record LayoutConfig
(src/src/types/life.types.ts, lines 217 to 248).  Row and column counts
are integer valued in every layout the engine produces, so they are
modelled as integers; sizes and offsets are exact rationals. -/
structure LayoutConfig where
  rows : ℤ
  columns : ℤ
  cellSize : ℚ
  offsetX : ℚ
  offsetY : ℚ
deriving DecidableEq, Repr

/-- The pixel coordinate record CellPosition
(src/src/types/life.types.ts). -/
structure CellPosition where
  x : ℚ
  y : ℚ
deriving DecidableEq, Repr

/-- Embedding of getCellPosition (src/src/utils/life.position.ts, lines
57 to 79).  The out-of-range guard is the source condition
index < 0 or index >= columns * rows; the sentinel is one cell size above
and to the left of the origin.  In the in-range branch the JavaScript
remainder operator is truncated remainder, modelled by Int.tmod, and
Math.floor (index / columns) is the rational floor.  The in-range branch
is only reached when 0 ≤ index < columns * rows, which forces
columns ≠ 0, so neither operation sees a zero divisor there. -/
def getCellPosition (index : ℤ) (layoutConfig : LayoutConfig) : CellPosition :=
  if index < 0 ∨ layoutConfig.columns * layoutConfig.rows ≤ index then
    { x := -layoutConfig.cellSize, y := -layoutConfig.cellSize }
  else
    let column := Int.tmod index layoutConfig.columns
    let row := ⌊(index : ℚ) / (layoutConfig.columns : ℚ)⌋
    { x := layoutConfig.offsetX + (column : ℚ) * layoutConfig.cellSize,
      y := layoutConfig.offsetY + (row : ℚ) * layoutConfig.cellSize }

/-- JavaScript Math.round: round half toward positive infinity.  Used by
the round-trip claim to invert a cell position back to its grid index. -/
def jsRound (q : ℚ) : ℤ := ⌊q + 1/2⌋

/-- The cell shape variants (src/src/types/life.types.ts). -/
inductive Shape where
  | square
  | circle
  | heart
deriving DecidableEq, Repr

/-- The resolved theme mode (src/src/types/life.types.ts). -/
inductive ThemeMode where
  | light
  | dark
deriving DecidableEq, Repr

/-- The semantic cell classification CellState
(src/src/types/life.types.ts). -/
inductive CellState where
  | past
  | present
  | future
  | empty
deriving DecidableEq, Repr

/-- The derived rendering contract RenderConfig
(src/src/types/life.types.ts, lines 153 to 186).  The two month counters
are integers; the progress fraction is an exact rational. -/
structure RenderConfig where
  totalMonths : ℤ
  fullMonthsLived : ℤ
  currentMonthProgress : ℚ
  themeMode : ThemeMode
  message : String
  shape : Shape

/-- Embedding of getCellState (src/unnamed/part_004, lines 64 to 80):
out-of-bounds indices are empty, then the index is compared with the
number of fully lived months. -/
def getCellState (index : ℤ) (renderConfig : RenderConfig) : CellState :=
  if renderConfig.totalMonths ≤ index ∨ index < 0 then CellState.empty
  else if index < renderConfig.fullMonthsLived then CellState.past
  else if index = renderConfig.fullMonthsLived then CellState.present
  else CellState.future

/-- The (year, month, day-of-month) components the temporal layer reads
off a JavaScript Date via getFullYear, getMonth and getDate.  The month is
0-based and the day 1-based as in JavaScript, though no claim depends on
the numbering origin. -/
structure SimpleDate where
  year : ℤ
  month : ℤ
  day : ℤ
deriving DecidableEq, Repr

/-- Embedding of getFullMonthsLived (src/src/utils/life.position.ts,
lines 130 to 157).  The Date parse of the dob string is modelled by an
Option: `none` is a string for which isNaN (getTime) holds, and the
function returns 0 on it.  Otherwise the source accumulates
12 * yearDiff + monthDiff, subtracts one when the current day-of-month is
before the birth day-of-month, and clamps at 0. -/
def getFullMonthsLived (present : SimpleDate) (dob : Option SimpleDate) : ℤ :=
  match dob with
  | none => 0
  | some birthDay =>
    let yearDiff := present.year - birthDay.year
    let monthDiff := present.month - birthDay.month
    let monthsFromYears := yearDiff * 12
    let returnVal :=
      if birthDay.day ≤ present.day then monthsFromYears + monthDiff
      else monthsFromYears + monthDiff - 1
    max returnVal 0

/-- The temporal environment for getCurrentMonthProgress.  `nowTime` is
the epoch timestamp of the current instant; `dobPlusMonthsTime n` is the
epoch timestamp of the Date obtained by parsing the dob string and
applying setMonth (getMonth () + n), the host calendar arithmetic the
source uses to build the start and end instants of the current unit;
`present` holds the current date components read by getFullMonthsLived;
`dob` is the parsed birth date, `none` when the string is unparseable.
Host calendar months have length at least one day, so
`dobPlusMonthsTime` is strictly monotone; theorems that need this take it
as an explicit hypothesis. -/
structure TimeModel where
  nowTime : ℚ
  dobPlusMonthsTime : ℤ → ℚ
  present : SimpleDate
  dob : Option SimpleDate

/-- Embedding of getCurrentMonthProgress (src/src/utils/life.position.ts,
lines 163 to 188): an unparseable dob gives 0; otherwise the progress is
the elapsed fraction of the interval from dob + fullMonthsLived months to
dob + (fullMonthsLived + 1) months, clamped into [0, 1] by
Math.min (Math.max (progress, 0), 1). -/
def getCurrentMonthProgress (tm : TimeModel) : ℚ :=
  match tm.dob with
  | none => 0
  | some birthDay =>
    let fullMonthsLived := getFullMonthsLived tm.present (some birthDay)
    let startTime := tm.dobPlusMonthsTime fullMonthsLived
    let endTime := tm.dobPlusMonthsTime (fullMonthsLived + 1)
    let elapsed := tm.nowTime - startTime
    let duration := endTime - startTime
    let progress := elapsed / duration
    min (max progress 0) 1

/-- An RGB triple, source type RGB = [number, number, number]
(src/unnamed/part_002, line 31); the channels there are integer
literals and Math.round outputs, hence integers. -/
structure RGB where
  r : ℤ
  g : ℤ
  b : ℤ
deriving DecidableEq, Repr

/-- LIGHT_THEME.start (src/unnamed/part_002, line 34). -/
def LIGHT_THEME_start : RGB := { r := 34, g := 197, b := 94 }

/-- LIGHT_THEME.end (src/unnamed/part_002, line 35). -/
def LIGHT_THEME_end : RGB := { r := 239, g := 68, b := 68 }

/-- LIGHT_THEME.future (src/unnamed/part_002, line 36). -/
def LIGHT_THEME_future : String := "#D1D5DB"

/-- DARK_THEME.start (src/unnamed/part_002, line 40). -/
def DARK_THEME_start : RGB := { r := 20, g := 184, b := 166 }

/-- DARK_THEME.end (src/unnamed/part_002, line 41). -/
def DARK_THEME_end : RGB := { r := 245, g := 158, b := 11 }

/-- DARK_THEME.future (src/unnamed/part_002, line 42). -/
def DARK_THEME_future : String := "#374151"

/-- A CSS color value as the draw engine produces it: either the
rgb(r,g,b) string built by lerpColor, kept as its three integer channels,
or a literal hex string from a theme palette. -/
inductive JSColor where
  | rgbStr (r g b : ℤ)
  | cssStr (s : String)
deriving DecidableEq, Repr

/-- Embedding of lerpColor (src/unnamed/part_002, lines 52 to 60): the
parameter is clamped into [0, 1], each channel is linearly interpolated
and rounded with Math.round. -/
def lerpColor (startColor endColor : RGB) (t : ℚ) : JSColor :=
  let safeT := max (min t 1) 0
  JSColor.rgbStr
    (jsRound ((startColor.r : ℚ) + ((endColor.r : ℚ) - (startColor.r : ℚ)) * safeT))
    (jsRound ((startColor.g : ℚ) + ((endColor.g : ℚ) - (startColor.g : ℚ)) * safeT))
    (jsRound ((startColor.b : ℚ) + ((endColor.b : ℚ) - (startColor.b : ℚ)) * safeT))

/-- Embedding of getCellColor (src/unnamed/part_002, lines 77 to 94):
indices strictly after fullMonthsLived get the flat neutral future color
of the active theme; all other indices get the interpolated color at
t = Math.min (index / totalMonths, 1), which lerpColor further clamps
from below. -/
def getCellColor (index totalMonths fullMonthsLived : ℚ)
    (theme : ThemeMode) : JSColor :=
  if fullMonthsLived < index then
    match theme with
    | ThemeMode.light => JSColor.cssStr LIGHT_THEME_future
    | ThemeMode.dark => JSColor.cssStr DARK_THEME_future
  else
    let t := min (index / totalMonths) 1
    match theme with
    | ThemeMode.light => lerpColor LIGHT_THEME_start LIGHT_THEME_end t
    | ThemeMode.dark => lerpColor DARK_THEME_start DARK_THEME_end t

/-- The start color of the active theme palette. -/
def themeStart : ThemeMode → RGB
  | ThemeMode.light => LIGHT_THEME_start
  | ThemeMode.dark => DARK_THEME_start

/-- The end color of the active theme palette. -/
def themeEnd : ThemeMode → RGB
  | ThemeMode.light => LIGHT_THEME_end
  | ThemeMode.dark => DARK_THEME_end

/-- The flat neutral color of the active theme palette. -/
def themeFuture : ThemeMode → String
  | ThemeMode.light => LIGHT_THEME_future
  | ThemeMode.dark => DARK_THEME_future

/-- Concrete layout used to refute the unrestricted out-of-range
position claim: a layout with cellSize = 0, which the LayoutConfig data
model permits (cellSize is only required to be ≥ 0). -/
def zeroCellLayout : LayoutConfig :=
  { rows := 1, columns := 1, cellSize := 0, offsetX := 0, offsetY := 0 }

/-- Concrete layout used to refute the unrestricted round-trip claim:
cellSize = 0 with two columns. -/
def zeroCellWideLayout : LayoutConfig :=
  { rows := 1, columns := 2, cellSize := 0, offsetX := 0, offsetY := 0 }

/-- Concrete layout with negative row and column counts whose product is
positive, so indices reach the in-range branch with a negative column
count. -/
def negativeCountLayout : LayoutConfig :=
  { rows := -2, columns := -3, cellSize := 1, offsetX := 0, offsetY := 0 }

/-- Concrete well-formed layout used by the round-trip witness. -/
def witnessLayout : LayoutConfig :=
  { rows := 2, columns := 3, cellSize := 5, offsetX := 7, offsetY := 9 }

/-- Concrete layout with zero rows and columns, used to exercise the
sentinel branch for every index. -/
def emptyLayout : LayoutConfig :=
  { rows := 0, columns := 0, cellSize := 4, offsetX := 0, offsetY := 0 }

/-- Concrete render configuration with the current month inside the
timeline. -/
def midlifeConfig : RenderConfig :=
  { totalMonths := 10, fullMonthsLived := 4, currentMonthProgress := 0,
    themeMode := ThemeMode.light, message := "", shape := Shape.square }

/-- Concrete render configuration in which the birth date has outlived
the configured expectancy. -/
def outlivedConfig : RenderConfig :=
  { totalMonths := 5, fullMonthsLived := 7, currentMonthProgress := 0,
    themeMode := ThemeMode.light, message := "", shape := Shape.square }

/-- Concrete temporal environment used by the progress witness: months
10 units of time long, anchored at 0, current instant 45. -/
def witnessTimeModel : TimeModel :=
  { nowTime := 45,
    dobPlusMonthsTime := fun n => 10 * (n : ℚ),
    present := { year := 2000, month := 4, day := 15 },
    dob := some { year := 2000, month := 0, day := 15 } }

namespace JSNum

theorem fin_add_fin (a b : ℚ) : fin a + fin b = fin (a + b) := rfl

theorem fin_mul_fin (a b : ℚ) : fin a * fin b = fin (a * b) := rfl

theorem fin_sub_fin (a b : ℚ) : fin a - fin b = fin (a - b) := by
  show add (fin a) (neg (fin b)) = fin (a - b)
  show fin (a + -b) = fin (a - b)
  rw [← sub_eq_add_neg]

theorem fin_div_fin (a b : ℚ) (hb : b ≠ 0) : fin a / fin b = fin (a / b) := by
  show div (fin a) (fin b) = fin (a / b)
  simp [div, hb]

theorem fin_div_fin_zero_pos (a : ℚ) (ha : 0 < a) : fin a / fin 0 = inf := by
  show div (fin a) (fin 0) = inf
  simp [div, ha]

theorem fin_zero_div_fin_zero : fin 0 / fin 0 = nan := by
  show div (fin 0) (fin 0) = nan
  simp [div]

theorem fin_div_nan (a : ℚ) : fin a / nan = nan := rfl

theorem nan_div (b : JSNum) : nan / b = nan := by cases b <;> rfl

theorem fin_minJ_fin (a b : ℚ) : minJ (fin a) (fin b) = fin (min a b) := rfl

theorem inf_minJ_fin (b : ℚ) : minJ inf (fin b) = fin b := rfl

theorem nan_minJ (b : JSNum) : minJ nan b = nan := by cases b <;> rfl

theorem minJ_nan (a : JSNum) : minJ a nan = nan := by cases a <;> rfl

theorem fin_maxJ_fin (a b : ℚ) : maxJ (fin a) (fin b) = fin (max a b) := rfl

theorem nan_maxJ (b : JSNum) : maxJ nan b = nan := by cases b <;> rfl

theorem maxJ_nan (a : JSNum) : maxJ a nan = nan := by cases a <;> rfl

theorem ceilJ_fin (a : ℚ) : ceilJ (fin a) = fin (⌈a⌉ : ℚ) := rfl

theorem ceilJ_nan : ceilJ nan = nan := rfl

theorem floorSqrt_fin (a : ℚ) (ha : 0 ≤ a) :
    floorSqrt (fin a) = fin (Nat.sqrt ⌊a⌋.toNat : ℚ) := by
  simp [floorSqrt, ha]

theorem floorSqrt_nan : floorSqrt nan = nan := rfl

end JSNum

/-- Justification of the `JSNum.floorSqrt` model: for a nonnegative
rational q, the floor of the real square root of q is Nat.sqrt ⌊q⌋. -/
theorem floorSqrt_eq_floor_real_sqrt (q : ℚ) (hq : 0 ≤ q) :
    ⌊Real.sqrt (q : ℝ)⌋ = (Nat.sqrt ⌊q⌋.toNat : ℤ) := by
  have hq0 : (0 : ℝ) ≤ (q : ℝ) := by exact_mod_cast hq
  have hfq : (⌊q⌋.toNat : ℚ) ≤ q := by
    have h1 : ((⌊q⌋.toNat : ℤ) : ℚ) ≤ q := by
      rw [Int.toNat_of_nonneg (Int.floor_nonneg.mpr hq)]
      exact Int.floor_le q
    exact_mod_cast h1
  refine Int.floor_eq_iff.mpr ⟨?_, ?_⟩
  · -- lower bound: Nat.sqrt ⌊q⌋ ≤ √q
    have h1 : ((Nat.sqrt ⌊q⌋.toNat : ℝ)) ^ 2 ≤ (q : ℝ) := by
      have := Nat.sqrt_le' ⌊q⌋.toNat
      have h2 : ((Nat.sqrt ⌊q⌋.toNat ^ 2 : ℕ) : ℝ) ≤ ((⌊q⌋.toNat : ℕ) : ℝ) := by
        exact_mod_cast this
      calc ((Nat.sqrt ⌊q⌋.toNat : ℝ)) ^ 2 = ((Nat.sqrt ⌊q⌋.toNat ^ 2 : ℕ) : ℝ) := by
            push_cast; ring
        _ ≤ ((⌊q⌋.toNat : ℕ) : ℝ) := h2
        _ ≤ (q : ℝ) := by exact_mod_cast hfq
    have := (Real.le_sqrt (by positivity) hq0).mpr h1
    exact_mod_cast this
  · -- upper bound: √q < Nat.sqrt ⌊q⌋ + 1
    have h1 : (q : ℝ) < ((Nat.sqrt ⌊q⌋.toNat : ℝ) + 1) ^ 2 := by
      have h2 : ⌊q⌋.toNat < (Nat.sqrt ⌊q⌋.toNat + 1) * (Nat.sqrt ⌊q⌋.toNat + 1) :=
        Nat.lt_succ_sqrt ⌊q⌋.toNat
      have h3 : (q : ℝ) < ((⌊q⌋.toNat : ℝ)) + 1 := by
        have : (q : ℝ) < (⌊q⌋ : ℝ) + 1 := by exact_mod_cast Int.lt_floor_add_one q
        rwa [show ((⌊q⌋.toNat : ℝ)) = ((⌊q⌋ : ℝ)) by
          exact_mod_cast congrArg (fun z : ℤ => (z : ℝ))
            (Int.toNat_of_nonneg (Int.floor_nonneg.mpr hq))]
      have h4 : ((⌊q⌋.toNat : ℝ)) + 1 ≤ ((Nat.sqrt ⌊q⌋.toNat : ℝ) + 1) ^ 2 := by
        have : ⌊q⌋.toNat + 1 ≤ (Nat.sqrt ⌊q⌋.toNat + 1) * (Nat.sqrt ⌊q⌋.toNat + 1) := h2
        calc ((⌊q⌋.toNat : ℝ)) + 1
            = (((⌊q⌋.toNat + 1 : ℕ)) : ℝ) := by push_cast; ring
          _ ≤ (((Nat.sqrt ⌊q⌋.toNat + 1) * (Nat.sqrt ⌊q⌋.toNat + 1) : ℕ) : ℝ) := by
              exact_mod_cast this
          _ = ((Nat.sqrt ⌊q⌋.toNat : ℝ) + 1) ^ 2 := by push_cast; ring
      linarith
    have := (Real.sqrt_lt' (by positivity)).mpr h1
    calc Real.sqrt (q : ℝ) < (Nat.sqrt ⌊q⌋.toNat : ℝ) + 1 := this
      _ = ((Nat.sqrt ⌊q⌋.toNat : ℤ) : ℝ) + 1 := by push_cast; ring

/-- Sanity check: the worked scenario of the specification, total 10 units
in a 100 by 100 viewport, gives 3 rows, 4 columns and cell size 20. -/
theorem computeGridLayout_scenario :
    layoutAt 10 100 100 =
      { rows := JSNum.fin 3, columns := JSNum.fin 4, cellSize := JSNum.fin 20,
        offsetX := JSNum.fin 10, offsetY := JSNum.fin 20 } := by
  have hs : Nat.sqrt 10 = 3 := by symm; rw [Nat.eq_sqrt]; constructor <;> norm_num
  have hc : ⌈(10 : ℚ) / 3⌉ = 4 := by rw [Int.ceil_eq_iff]; norm_num
  have ht : (10 : ℤ).toNat = 10 := rfl
  unfold layoutAt computeGridLayout
  norm_num [JSNum.fin_mul_fin, JSNum.fin_sub_fin, JSNum.fin_div_fin,
    JSNum.floorSqrt_fin, JSNum.fin_maxJ_fin, JSNum.ceilJ_fin,
    JSNum.fin_minJ_fin, ht, hs, hc]

/-- C1: for every totalMonths ≥ 1 and every viewport with width > 0 and
height > 0, computeGridLayout returns a layout whose rows, columns and
cellSize are finite, with rows ≥ 1, columns ≥ 1,
rows * columns ≥ totalMonths and cellSize ≥ 0. -/
theorem computeGridLayout_valid (t w h : ℚ) (ht : 1 ≤ t) (hw : 0 < w) (hh : 0 < h) :
    (layoutAt t w h).rows.finite = true ∧
    (layoutAt t w h).columns.finite = true ∧
    (layoutAt t w h).cellSize.finite = true ∧
    1 ≤ (layoutAt t w h).rows.toQ ∧
    1 ≤ (layoutAt t w h).columns.toQ ∧
    t ≤ (layoutAt t w h).rows.toQ * (layoutAt t w h).columns.toQ ∧
    0 ≤ (layoutAt t w h).cellSize.toQ := by
  have h0t : (0:ℚ) < t := by linarith
  have huw : (0:ℚ) < w - 2 * (1/10 * w) := by linarith
  have huh : (0:ℚ) < h - 2 * (1/10 * h) := by linarith
  have hq : (0:ℚ) ≤ t * (h - 2 * (1/10 * h)) / (w - 2 * (1/10 * w)) := by positivity
  have hrpos : (0:ℚ) <
      max ((Nat.sqrt ⌊t * (h - 2 * (1/10 * h)) / (w - 2 * (1/10 * w))⌋.toNat : ℕ) : ℚ) 1 :=
    lt_of_lt_of_le one_pos (le_max_right _ _)
  have hcpos : (0:ℤ) <
      ⌈t / max ((Nat.sqrt ⌊t * (h - 2 * (1/10 * h)) / (w - 2 * (1/10 * w))⌋.toNat : ℕ) : ℚ) 1⌉ :=
    Int.ceil_pos.mpr (div_pos h0t hrpos)
  have hcq : (0:ℚ) <
      ((⌈t / max ((Nat.sqrt ⌊t * (h - 2 * (1/10 * h)) / (w - 2 * (1/10 * w))⌋.toNat : ℕ) : ℚ) 1⌉ : ℤ) : ℚ) := by
    exact_mod_cast hcpos
  unfold layoutAt computeGridLayout
  simp only [JSNum.fin_mul_fin, JSNum.fin_sub_fin, JSNum.fin_div_fin _ _ huw.ne',
    JSNum.floorSqrt_fin _ hq, JSNum.fin_maxJ_fin, JSNum.fin_div_fin _ _ hrpos.ne',
    JSNum.ceilJ_fin, JSNum.fin_div_fin _ _ hcq.ne', JSNum.fin_minJ_fin,
    JSNum.fin_div_fin _ _ (by norm_num : (2:ℚ) ≠ 0), JSNum.finite, JSNum.toQ]
  refine ⟨trivial, trivial, trivial, le_max_right _ _, by exact_mod_cast hcpos, ?_, ?_⟩
  · have hle := Int.le_ceil
      (t / max ((Nat.sqrt ⌊t * (h - 2 * (1/10 * h)) / (w - 2 * (1/10 * w))⌋.toNat : ℕ) : ℚ) 1)
    rw [div_le_iff₀ hrpos] at hle
    calc t ≤ _ := hle
      _ = _ := mul_comm _ _
  · exact le_min (div_nonneg huw.le hcq.le) (div_nonneg huh.le hrpos.le)

/-- C1 witness: the layout validity theorem applied at totalMonths = 10 in
a 100 by 100 viewport. -/
theorem computeGridLayout_valid_witness :
    (layoutAt 10 100 100).rows.finite = true ∧
    (layoutAt 10 100 100).columns.finite = true ∧
    (layoutAt 10 100 100).cellSize.finite = true ∧
    1 ≤ (layoutAt 10 100 100).rows.toQ ∧
    1 ≤ (layoutAt 10 100 100).columns.toQ ∧
    (10:ℚ) ≤ (layoutAt 10 100 100).rows.toQ * (layoutAt 10 100 100).columns.toQ ∧
    0 ≤ (layoutAt 10 100 100).cellSize.toQ :=
  computeGridLayout_valid 10 100 100 (by norm_num) (by norm_num) (by norm_num)

/-- C6: evaluation of the unguarded source at its degenerate inputs.  At
totalMonths = 0 in a positive 100 by 100 viewport, computeGridLayout does
not return a zero-size, zero-count layout: rows is 1 and cellSize is 80
(the infinite intermediate usableWidth / 0 is absorbed by Math.min).  With
viewport width 0 the returned cellSize is NaN.  This is the divergence
behind the code_bug verdict: the specification mandates a zero-size,
zero-count fallback that the source does not implement. -/
theorem computeGridLayout_degenerate_divergence :
    (layoutAt 0 100 100).rows = JSNum.fin 1 ∧
    (layoutAt 0 100 100).columns = JSNum.fin 0 ∧
    (layoutAt 0 100 100).cellSize = JSNum.fin 80 ∧
    (layoutAt 0 0 100).cellSize = JSNum.nan := by
  unfold layoutAt computeGridLayout
  norm_num [JSNum.fin_mul_fin, JSNum.fin_sub_fin, JSNum.fin_div_fin,
    JSNum.fin_div_fin_zero_pos, JSNum.fin_zero_div_fin_zero, JSNum.fin_div_nan,
    JSNum.nan_div, JSNum.fin_maxJ_fin, JSNum.nan_maxJ, JSNum.maxJ_nan,
    JSNum.fin_minJ_fin, JSNum.inf_minJ_fin, JSNum.nan_minJ, JSNum.minJ_nan,
    JSNum.ceilJ_fin, JSNum.ceilJ_nan, JSNum.floorSqrt_fin, JSNum.floorSqrt_nan]

/-- C2: getCellState is a total function on integer indices that assigns
exactly one state to every index: empty exactly outside [0, totalMonths);
past exactly on [0, min fullMonthsLived totalMonths); present exactly at
index = fullMonthsLived when that is inside [0, totalMonths); future on
the rest; and whenever 0 ≤ fullMonthsLived < totalMonths, present holds
exactly at the single index fullMonthsLived. -/
theorem getCellState_partition (index : ℤ) (cfg : RenderConfig) :
    (getCellState index cfg = CellState.empty ↔
      index < 0 ∨ cfg.totalMonths ≤ index) ∧
    (getCellState index cfg = CellState.past ↔
      0 ≤ index ∧ index < min cfg.fullMonthsLived cfg.totalMonths) ∧
    (getCellState index cfg = CellState.present ↔
      index = cfg.fullMonthsLived ∧ 0 ≤ index ∧ index < cfg.totalMonths) ∧
    (getCellState index cfg = CellState.future ↔
      cfg.fullMonthsLived < index ∧ 0 ≤ index ∧ index < cfg.totalMonths) ∧
    (0 ≤ cfg.fullMonthsLived ∧ cfg.fullMonthsLived < cfg.totalMonths →
      (getCellState index cfg = CellState.present ↔ index = cfg.fullMonthsLived)) := by
  unfold getCellState
  refine ⟨?_, ?_, ?_, ?_, ?_⟩
  · split_ifs with h1 h2 h3 <;> simp <;> omega
  · split_ifs with h1 h2 h3 <;> simp [min_def] <;> split_ifs <;> omega
  · split_ifs with h1 h2 h3 <;> simp <;> omega
  · split_ifs with h1 h2 h3 <;> simp <;> omega
  · intro hmid
    split_ifs with h1 h2 h3 <;> simp <;> omega

/-- C2 witness: in the midlife configuration (totalMonths = 10,
fullMonthsLived = 4) the present state holds exactly at index 4. -/
theorem getCellState_partition_witness :
    getCellState 4 midlifeConfig = CellState.present ↔
      (4:ℤ) = midlifeConfig.fullMonthsLived :=
  (getCellState_partition 4 midlifeConfig).2.2.2.2 (by norm_num [midlifeConfig])

/-- C9: when fullMonthsLived ≥ totalMonths (the birth date has outlived
the expectancy), no index is classified present; every index in
[0, totalMonths) is past and every other index is empty. -/
theorem getCellState_outlived (cfg : RenderConfig)
    (h : cfg.totalMonths ≤ cfg.fullMonthsLived) (index : ℤ) :
    getCellState index cfg ≠ CellState.present ∧
    (0 ≤ index → index < cfg.totalMonths → getCellState index cfg = CellState.past) ∧
    (index < 0 ∨ cfg.totalMonths ≤ index → getCellState index cfg = CellState.empty) := by
  unfold getCellState
  refine ⟨?_, ?_, ?_⟩
  · split_ifs with h1 h2 h3 <;> simp <;> omega
  · intro ha hb
    split_ifs with h1 h2 h3 <;> first | rfl | (exfalso; omega)
  · intro ha
    split_ifs with h1 h2 h3 <;> first | rfl | (exfalso; omega)

/-- C9 witness: in the outlived configuration (totalMonths = 5,
fullMonthsLived = 7) index 3 is past. -/
theorem getCellState_outlived_witness :
    getCellState 3 outlivedConfig = CellState.past :=
  (getCellState_outlived outlivedConfig (by norm_num [outlivedConfig]) 3).2.1
    (by norm_num) (by norm_num [outlivedConfig])

/-- C3: getFullMonthsLived equals the clamped component formula
max 0 (12 * yearDiff + monthDiff - borrow), where the borrow is 1 exactly
when the current day-of-month is earlier than the birth day-of-month; it
is never negative, and an unparseable birth date yields 0. -/
theorem getFullMonthsLived_spec (present b : SimpleDate) (dob : Option SimpleDate) :
    getFullMonthsLived present (some b) =
      max 0 (12 * (present.year - b.year) + (present.month - b.month) -
        (if present.day < b.day then 1 else 0)) ∧
    0 ≤ getFullMonthsLived present dob ∧
    getFullMonthsLived present none = 0 := by
  refine ⟨?_, ?_, rfl⟩
  · simp only [getFullMonthsLived]
    split_ifs with h1 h2 <;> omega
  · unfold getFullMonthsLived
    cases dob with
    | none => exact le_refl 0
    | some bd => exact le_max_right _ _

/-- C4: under the host-calendar fact that consecutive month anchors are
strictly increasing (a month is at least one day long, so the current
unit has positive duration), getCurrentMonthProgress always lies in
[0, 1]; an unparseable birth date yields 0; and on a parsed birth date it
equals clamp ((now - start) / (end - start), 0, 1) with
start = dob + fullMonthsLived months and end = dob +
(fullMonthsLived + 1) months. -/
theorem getCurrentMonthProgress_spec (tm : TimeModel)
    (hmono : ∀ n : ℤ, tm.dobPlusMonthsTime n < tm.dobPlusMonthsTime (n + 1)) :
    (0 ≤ getCurrentMonthProgress tm ∧ getCurrentMonthProgress tm ≤ 1) ∧
    (tm.dob = none → getCurrentMonthProgress tm = 0) ∧
    (∀ b, tm.dob = some b →
      getCurrentMonthProgress tm =
        min (max ((tm.nowTime - tm.dobPlusMonthsTime (getFullMonthsLived tm.present (some b))) /
          (tm.dobPlusMonthsTime (getFullMonthsLived tm.present (some b) + 1) -
            tm.dobPlusMonthsTime (getFullMonthsLived tm.present (some b)))) 0) 1) := by
  refine ⟨?_, ?_, ?_⟩
  · unfold getCurrentMonthProgress
    rcases hdob : tm.dob with _ | b
    · norm_num
    · exact ⟨le_min (le_max_right _ _) zero_le_one, min_le_right _ _⟩
  · intro h
    unfold getCurrentMonthProgress
    rw [h]
  · intro b hb
    unfold getCurrentMonthProgress
    rw [hb]

/-- C4 witness: in the concrete temporal environment with 10-unit months
the progress is inside [0, 1]. -/
theorem getCurrentMonthProgress_spec_witness :
    0 ≤ getCurrentMonthProgress witnessTimeModel ∧
    getCurrentMonthProgress witnessTimeModel ≤ 1 :=
  (getCurrentMonthProgress_spec witnessTimeModel (by
    intro n
    show (10 : ℚ) * (n : ℚ) < 10 * ((n + 1 : ℤ) : ℚ)
    push_cast
    linarith)).1

/-- C5: getCellColor returns the flat neutral future color of the active
theme for every index strictly after fullMonthsLived, and for every index
at or before fullMonthsLived it returns the linear RGB interpolation
between the start and end colors of the theme at the clamped parameter
t = clamp (index / totalMonths, 0, 1). -/
theorem getCellColor_spec (index totalMonths fullMonthsLived : ℚ)
    (theme : ThemeMode) :
    (fullMonthsLived < index →
      getCellColor index totalMonths fullMonthsLived theme =
        JSColor.cssStr (themeFuture theme)) ∧
    (index ≤ fullMonthsLived →
      getCellColor index totalMonths fullMonthsLived theme =
        lerpColor (themeStart theme) (themeEnd theme)
          (max (min (index / totalMonths) 1) 0)) := by
  constructor
  · intro h
    unfold getCellColor
    rw [if_pos h]
    cases theme <;> rfl
  · intro h
    unfold getCellColor
    rw [if_neg (not_lt.mpr h)]
    have hsafe : ∀ s e : RGB,
        lerpColor s e (min (index / totalMonths) 1) =
          lerpColor s e (max (min (index / totalMonths) 1) 0) := by
      intro s e
      unfold lerpColor
      have hc1 : max (min (index / totalMonths) 1) 0 ≤ 1 :=
        max_le (min_le_right _ _) zero_le_one
      have hclamp : max (min (min (index / totalMonths) 1) 1) 0
          = max (min (max (min (index / totalMonths) 1) 0) 1) 0 := by
        calc max (min (min (index / totalMonths) 1) 1) 0
            = max (min (index / totalMonths) 1) 0 := by rw [min_assoc, min_self]
          _ = max (max (min (index / totalMonths) 1) 0) 0 :=
              (max_eq_left (le_max_right _ _)).symm
          _ = max (min (max (min (index / totalMonths) 1) 0) 1) 0 := by
              rw [min_eq_left hc1]
      rw [hclamp]
    cases theme
    · exact hsafe LIGHT_THEME_start LIGHT_THEME_end
    · exact hsafe DARK_THEME_start DARK_THEME_end

/-- C5 witness: at index 3 of 10 with 5 full months lived, the light
theme color is the interpolation at the clamped parameter 3/10. -/
theorem getCellColor_spec_witness :
    getCellColor 3 10 5 ThemeMode.light =
      lerpColor (themeStart ThemeMode.light) (themeEnd ThemeMode.light)
        (max (min ((3:ℚ) / 10) 1) 0) :=
  (getCellColor_spec 3 10 5 ThemeMode.light).2 (by norm_num)

/-- C7 (amended): for every layout with cellSize > 0 and every
out-of-range index, getCellPosition returns the sentinel point one cell
size above and to the left of the origin, which is strictly outside every
viewport rectangle [0, w] x [0, h] with w, h ≥ 0 and lies at distance
cellSize from it on both axes.  The amendment adds the hypothesis
cellSize > 0: the claim as stated fails for a layout with cellSize = 0,
which the data model permits (see the counterexample). -/
theorem getCellPosition_out_of_range (L : LayoutConfig) (index : ℤ) (w h : ℚ)
    (hrange : index < 0 ∨ L.columns * L.rows ≤ index) (hpos : 0 < L.cellSize)
    (hw : 0 ≤ w) (hh : 0 ≤ h) :
    getCellPosition index L = { x := -L.cellSize, y := -L.cellSize } ∧
    (getCellPosition index L).x < 0 ∧ (getCellPosition index L).y < 0 ∧
    ¬ (0 ≤ (getCellPosition index L).x ∧ (getCellPosition index L).x ≤ w ∧
       0 ≤ (getCellPosition index L).y ∧ (getCellPosition index L).y ≤ h) ∧
    L.cellSize ≤ 0 - (getCellPosition index L).x ∧
    L.cellSize ≤ 0 - (getCellPosition index L).y := by
  have hsent : getCellPosition index L = { x := -L.cellSize, y := -L.cellSize } := by
    unfold getCellPosition
    rw [if_pos hrange]
  have hx : (getCellPosition index L).x = -L.cellSize := by rw [hsent]
  have hy : (getCellPosition index L).y = -L.cellSize := by rw [hsent]
  refine ⟨hsent, ?_, ?_, ?_, ?_, ?_⟩
  · rw [hx]; linarith
  · rw [hy]; linarith
  · rintro ⟨h1, -, -, -⟩
    rw [hx] at h1
    linarith
  · rw [hx]; linarith
  · rw [hy]; linarith

/-- C7 witness: index 10 is outside the 2 by 3 witness layout and its
position is the sentinel, outside the 100 by 100 viewport. -/
theorem getCellPosition_out_of_range_witness :
    getCellPosition 10 witnessLayout =
      { x := -witnessLayout.cellSize, y := -witnessLayout.cellSize } ∧
    (getCellPosition 10 witnessLayout).x < 0 ∧
    (getCellPosition 10 witnessLayout).y < 0 ∧
    ¬ (0 ≤ (getCellPosition 10 witnessLayout).x ∧
       (getCellPosition 10 witnessLayout).x ≤ 100 ∧
       0 ≤ (getCellPosition 10 witnessLayout).y ∧
       (getCellPosition 10 witnessLayout).y ≤ 100) ∧
    witnessLayout.cellSize ≤ 0 - (getCellPosition 10 witnessLayout).x ∧
    witnessLayout.cellSize ≤ 0 - (getCellPosition 10 witnessLayout).y :=
  getCellPosition_out_of_range witnessLayout 10 100 100
    (by norm_num [witnessLayout]) (by norm_num [witnessLayout])
    (by norm_num) (by norm_num)

/-- C7 counterexample: the claim as stated, without a positivity
assumption on cellSize, is false: in the zero-cell layout (cellSize = 0,
allowed by the data model) the out-of-range index -1 is mapped to the
origin, which lies inside the viewport rectangle [0, 100] x [0, 100]. -/
theorem getCellPosition_out_of_range_cex :
    ((-1 : ℤ) < 0 ∨ zeroCellLayout.columns * zeroCellLayout.rows ≤ -1) ∧
    0 ≤ (getCellPosition (-1) zeroCellLayout).x ∧
    (getCellPosition (-1) zeroCellLayout).x ≤ 100 ∧
    0 ≤ (getCellPosition (-1) zeroCellLayout).y ∧
    (getCellPosition (-1) zeroCellLayout).y ≤ 100 := by
  have hp : getCellPosition (-1) zeroCellLayout = { x := 0, y := 0 } := by
    unfold getCellPosition zeroCellLayout
    norm_num
  refine ⟨Or.inl (by norm_num), ?_, ?_, ?_, ?_⟩ <;> rw [hp] <;> norm_num

/-- C8 (amended): for every layout with columns ≥ 1 and cellSize ≠ 0 and
every in-range index, rounding (position - offset) / cellSize per axis
recovers the index as row * columns + column.  The amendment adds the two
hypotheses: with cellSize = 0 the inversion divides by zero, and with a
negative column count (reachable when both counts are negative) the
remainder and floor-division conventions break the identity (see the
counterexample). -/
theorem getCellPosition_round_trip (L : LayoutConfig) (index : ℤ)
    (h0 : 0 ≤ index) (hix : index < L.columns * L.rows)
    (hcols : 1 ≤ L.columns) (hcs : L.cellSize ≠ 0) :
    index =
      jsRound (((getCellPosition index L).y - L.offsetY) / L.cellSize) * L.columns +
      jsRound (((getCellPosition index L).x - L.offsetX) / L.cellSize) := by
  have hguard : ¬ (index < 0 ∨ L.columns * L.rows ≤ index) := by
    push_neg
    exact ⟨h0, hix⟩
  have hposval : getCellPosition index L =
      { x := L.offsetX + ((Int.tmod index L.columns : ℤ) : ℚ) * L.cellSize,
        y := L.offsetY + ((⌊(index : ℚ) / (L.columns : ℚ)⌋ : ℤ) : ℚ) * L.cellSize } := by
    unfold getCellPosition
    rw [if_neg hguard]
  have hxdiv : ((getCellPosition index L).x - L.offsetX) / L.cellSize
      = ((Int.tmod index L.columns : ℤ) : ℚ) := by
    rw [hposval]
    field_simp
  have hydiv : ((getCellPosition index L).y - L.offsetY) / L.cellSize
      = ((⌊(index : ℚ) / (L.columns : ℚ)⌋ : ℤ) : ℚ) := by
    rw [hposval]
    field_simp
  have hjr : ∀ n : ℤ, jsRound ((n : ℤ) : ℚ) = n := by
    intro n
    unfold jsRound
    rw [add_comm, Int.floor_add_int]
    norm_num
  rw [hxdiv, hydiv, hjr, hjr]
  have hcols0 : (0:ℤ) < L.columns := by linarith
  have hrowdiv : ⌊(index : ℚ) / (L.columns : ℚ)⌋ = index / L.columns := by
    have hLc : ((L.columns.toNat : ℕ) : ℤ) = L.columns :=
      Int.toNat_of_nonneg (by linarith)
    calc ⌊(index : ℚ) / (L.columns : ℚ)⌋
        = ⌊(index : ℚ) / ((L.columns.toNat : ℕ) : ℚ)⌋ := by
          rw [show ((L.columns.toNat : ℕ) : ℚ) = (L.columns : ℚ) by exact_mod_cast hLc]
      _ = index / ((L.columns.toNat : ℕ) : ℤ) :=
          Rat.floor_intCast_div_natCast index L.columns.toNat
      _ = index / L.columns := by rw [hLc]
  have htmod : Int.tmod index L.columns = index % L.columns :=
    Int.tmod_eq_emod h0 (by linarith)
  rw [hrowdiv, htmod]
  linarith [Int.ediv_add_emod index L.columns,
    mul_comm (index / L.columns) L.columns]

/-- C8 witness: index 4 of the 2-row, 3-column witness layout with cell
size 5 round-trips through its pixel position. -/
theorem getCellPosition_round_trip_witness :
    (4:ℤ) =
      jsRound (((getCellPosition 4 witnessLayout).y - witnessLayout.offsetY) /
        witnessLayout.cellSize) * witnessLayout.columns +
      jsRound (((getCellPosition 4 witnessLayout).x - witnessLayout.offsetX) /
        witnessLayout.cellSize) :=
  getCellPosition_round_trip witnessLayout 4
    (by norm_num) (by norm_num [witnessLayout])
    (by norm_num [witnessLayout]) (by norm_num [witnessLayout])

/-- C8 counterexample: the unrestricted round-trip claim is false.  In
the zero-cell two-column layout the in-range index 1 is not recovered
(the inversion divides by cellSize = 0; under the rational convention the
recovered index is 0, and under the JavaScript convention it is NaN, in
both cases different from 1).  In the negative-count layout (rows = -2,
columns = -3, product 6) the in-range index 2 is recovered as 5. -/
theorem getCellPosition_round_trip_cex :
    ((0:ℤ) ≤ 1 ∧ (1:ℤ) < zeroCellWideLayout.columns * zeroCellWideLayout.rows ∧
      jsRound (((getCellPosition 1 zeroCellWideLayout).y - zeroCellWideLayout.offsetY) /
        zeroCellWideLayout.cellSize) * zeroCellWideLayout.columns +
      jsRound (((getCellPosition 1 zeroCellWideLayout).x - zeroCellWideLayout.offsetX) /
        zeroCellWideLayout.cellSize) ≠ (1:ℤ)) ∧
    ((0:ℤ) ≤ 2 ∧ (2:ℤ) < negativeCountLayout.columns * negativeCountLayout.rows ∧
      jsRound (((getCellPosition 2 negativeCountLayout).y - negativeCountLayout.offsetY) /
        negativeCountLayout.cellSize) * negativeCountLayout.columns +
      jsRound (((getCellPosition 2 negativeCountLayout).x - negativeCountLayout.offsetX) /
        negativeCountLayout.cellSize) ≠ (2:ℤ)) := by
  have ht1 : Int.tmod 1 2 = 1 := by decide
  have ht2 : Int.tmod 2 (-3) = 2 := by decide
  have hf1 : ⌊(1 : ℚ) / (2 : ℚ)⌋ = 0 := by norm_num
  have hf2 : ⌊(2 : ℚ) / (-3 : ℚ)⌋ = -1 := by norm_num
  have hp1 : getCellPosition 1 zeroCellWideLayout = { x := 0, y := 0 } := by
    unfold getCellPosition zeroCellWideLayout
    norm_num [ht1, hf1]
  have hp2 : getCellPosition 2 negativeCountLayout = { x := 2, y := -1 } := by
    unfold getCellPosition negativeCountLayout
    norm_num [ht2, hf2]
  constructor
  · refine ⟨by norm_num, by norm_num [zeroCellWideLayout], ?_⟩
    rw [hp1]
    norm_num [zeroCellWideLayout, jsRound]
  · refine ⟨by norm_num, by norm_num [negativeCountLayout], ?_⟩
    rw [hp2]
    norm_num [negativeCountLayout, jsRound]

/-- C10 (amended): getCellPosition is total and never evaluates its
remainder or division with a zero divisor: for every layout with
rows * columns ≤ 0 (in particular columns = 0) every index, including 0,
takes the out-of-range sentinel branch, and whenever the in-range branch
is taken the column count is nonzero.  The amendment weakens the final
clause of the claim from columns ≥ 1 to columns ≠ 0: a layout whose row and
column counts are both negative reaches the in-range branch with
columns < 1 (see the counterexample), yet the divisor is still nonzero,
so the division-safety property itself survives. -/
theorem getCellPosition_guard (L : LayoutConfig) (index : ℤ) :
    (L.rows * L.columns ≤ 0 →
      getCellPosition index L = { x := -L.cellSize, y := -L.cellSize }) ∧
    (¬ (index < 0 ∨ L.columns * L.rows ≤ index) → L.columns ≠ 0) := by
  constructor
  · intro hsmall
    have hcond : index < 0 ∨ L.columns * L.rows ≤ index := by
      rcases lt_or_le index 0 with h1 | h1
      · exact Or.inl h1
      · refine Or.inr (le_trans ?_ h1)
        have hcomm : L.columns * L.rows = L.rows * L.columns := mul_comm _ _
        linarith
    unfold getCellPosition
    rw [if_pos hcond]
  · intro hguard hc
    push_neg at hguard
    obtain ⟨h1, h2⟩ := hguard
    rw [hc] at h2
    simp at h2
    omega

/-- C10 witness: in the empty layout (rows = 0, columns = 0) index 0
takes the sentinel branch. -/
theorem getCellPosition_guard_witness :
    getCellPosition 0 emptyLayout =
      { x := -emptyLayout.cellSize, y := -emptyLayout.cellSize } :=
  (getCellPosition_guard emptyLayout 0).1 (by norm_num [emptyLayout])

/-- C10 counterexample: the clause that the remainder and division are
only evaluated when columns ≥ 1 is false as stated: in the
negative-count layout (rows = -2, columns = -3) index 2 fails the
out-of-range guard, so the in-range branch with its remainder and
division is evaluated although columns < 1. -/
theorem getCellPosition_guard_cex :
    ¬ ((2:ℤ) < 0 ∨ negativeCountLayout.columns * negativeCountLayout.rows ≤ 2) ∧
    negativeCountLayout.columns < 1 := by
  constructor
  · push_neg
    exact ⟨by norm_num, by norm_num [negativeCountLayout]⟩
  · norm_num [negativeCountLayout]
